import Mathlib

/-!
Verification development for the batching/delivery core of a telemetry
forwarder (a fluent-bit output plugin, `out_newrelic.go`).

The Go source is shallowly embedded: pure functions become Lean functions,
the mutable `BufferManager` becomes explicit state passing, Go `int64`
arithmetic is `Int` with an explicit wrap where overflow can occur, and a
Go `panic` is modelled as `Except.error`.  Compression and JSON
serialization are Go standard-library calls, so the compressed size of a
record list is abstracted as a function parameter `csize` (standing for
`packagePayload(records).Cap()`), and `json.Marshal` is modelled over a
tagged dynamic-value type mirroring the `interface\x7b\x7d` shapes the
plugin manipulates.
-/

/-- Go dynamic values (`interface\x7b\x7d`) as the plugin sees them: strings,
byte slices (content kept as a `String`), integers, booleans, a non-finite
float such as NaN (which `json.Marshal` rejects), maps with dynamic keys
(`map[interface\x7b\x7d]interface\x7b\x7d`), maps with string keys
(`map[string]interface\x7b\x7d`, the output shape of `remapRecord`), and
lists. -/
inductive GoVal where
  | vstr : String → GoVal
  | vbytes : String → GoVal
  | vnum : Int → GoVal
  | vbool : Bool → GoVal
  | vnan : GoVal
  | vmap : List (GoVal × GoVal) → GoVal
  | vsmap : List (String × GoVal) → GoVal
  | vlist : List GoVal → GoVal

/-- An output record, Go `map[string]interface\x7b\x7d`, as an association
list. -/
abbrev OutRec := List (String × GoVal)

/-- Structure `PluginConfig` from the source. -/
structure PluginConfig where
  endpoint : String
  apiKey : String
  licenseKey : String
  maxBufferSize : Int
  maxRecords : Int
  maxTimeBetweenFlushes : Int
  useApiKey : Bool
  reportingSourceType : String
  reportingSourceVersion : String
deriving DecidableEq, Repr

/-- The mutable state of `BufferManager`: the live batch and the time of
the last flush (milliseconds).  The `http.Client` field carries no
observable state for the properties here. -/
structure BMState where
  buffer : List OutRec
  lastFlushTime : Int

/-- Model of `shouldSend` (source lines 82-85): flush is due when the buffer length
reaches `maxRecords` or when the time since the last flush STRICTLY
exceeds `maxTimeBetweenFlushes`.  `now` stands for
`timeNowInMiliseconds()`. -/
def shouldSend (config : PluginConfig) (st : BMState) (now : Int) : Bool :=
  ((st.buffer.length : Int) ≥ config.maxRecords) ||
    ((now - st.lastFlushTime) > config.maxTimeBetweenFlushes)

/-- Model of `addRecord` (source lines 69-76) composed with the state mutation of
`sendRecords` (lines 87-95): append the record, then, if `shouldSend`,
snapshot the buffer, clear it and reset `lastFlushTime`.  The returned
`Bool` records whether a flush was triggered (`addRecord` returning a
non-nil channel); the returned snapshot is the record list handed to
`prepare`, `[]` when no flush happened. -/
def addRecord (config : PluginConfig) (st : BMState) (now : Int)
    (record : OutRec) : BMState × Bool × List OutRec :=
  let appended : BMState := { st with buffer := st.buffer ++ [record] }
  if shouldSend config appended now then
    ({ buffer := [], lastFlushTime := now }, true, appended.buffer)
  else
    (appended, false, [])

/-- Model of `isEmpty` (source lines 78-80). -/
def isEmpty (st : BMState) : Bool :=
  st.buffer.length == 0

/-- Two-sided clamp into the signed 64-bit range: Go `int64` arithmetic
wraps, so `x` is reduced modulo `2 ^ 64` into `[-2 ^ 63, 2 ^ 63)`. -/
def wrap64 (x : Int) : Int :=
  (x + 2 ^ 63) % 2 ^ 64 - 2 ^ 63

/-- Model of `timeToMillis` (source lines 257-271).  Thresholds from the source:
`maxSeconds = 2000000000`, `maxMilliseconds = maxSeconds * 1000`,
`maxMicroseconds = maxMilliseconds * 1000`.  Go division on `int64`
truncates toward zero (`Int.tdiv`); the only operation that can overflow
is the multiplication by 1000, hence the `wrap64` there. -/
def timeToMillis (t : Int) : Int :=
  if t < 2000000000 then wrap64 (t * 1000)
  else if t < 2000000000000 then t
  else if t < 2000000000000000 then Int.tdiv t 1000
  else Int.tdiv t 1000000

/-- Model of `prepare` (source lines 97-116), chunk view.  `csize records` abstracts
`packagePayload(records).Cap()`, the size of the compressed JSON encoding
of `records`; `cap` is `config.maxBufferSize`.  The Go function recurses
with no base case on the list length (`first = records[0:len/2]`,
`second = records[len/2:len]`), so it need not terminate; a `fuel`
parameter makes the embedding total.  The result collects the record
lists of the payload chunks dispatched so far (each one handed to
`makeRequest` on its own goroutine), together with `true` when the call
ran to completion and `false` when the fuel ran out (the Go call would
still be running). -/
def prepareChunks (csize : List OutRec → Nat) (cap : Int) :
    Nat → List OutRec → List (List OutRec) × Bool
  | 0, _ => ([], false)
  | fuel + 1, records =>
    if (csize records : Int) ≥ cap then
      let first := records.take (records.length / 2)
      let second := records.drop (records.length / 2)
      let r1 := prepareChunks csize cap fuel first
      let r2 := prepareChunks csize cap fuel second
      (r1.1 ++ r2.1, r1.2 && r2.2)
    else
      ([records], true)

/-- Go `k.(string)`: the type assertion yields the string when the dynamic
value is one, and panics otherwise (modelled as `Except.error`). -/
def asString : GoVal → Except String String
  | .vstr s => .ok s
  | _ => .error "interface conversion: interface is not string"

mutual

/-- The `switch value := v.(type)` of `remapRecord` (source lines
241-252): a `[]byte` value: a `[]byte` value
becomes a string, a string passes through, a nested dynamic map is
remapped recursively into a `map[string]interface\x7b\x7d`, and the
default case passes every other value (numbers, booleans, floats, lists,
string-keyed maps) through unchanged. -/
def remapValue : GoVal → Except String GoVal
  | .vbytes b => .ok (GoVal.vstr b)
  | .vstr s => .ok (GoVal.vstr s)
  | .vmap m =>
    match remapRecord m with
    | .error e => .error e
    | .ok m2 => .ok (GoVal.vsmap m2)
  | other => .ok other
termination_by v => sizeOf v

/-- Model of `remapRecord` (source lines 238-255): every branch of the loop body
stores the transformed value under `k.(string)`, which panics when the
key is not a string. -/
def remapRecord : List (GoVal × GoVal) → Except String OutRec
  | [] => .ok []
  | (k, v) :: rest =>
    match remapValue v with
    | .error e => .error e
    | .ok outv =>
      match asString k with
      | .error e => .error e
      | .ok ks =>
        match remapRecord rest with
        | .error e => .error e
        | .ok rest2 => .ok ((ks, outv) :: rest2)
termination_by l => sizeOf l

end

/-- Wrap a string in JSON quotes (escaping elided: the exact bytes of a
payload are never inspected by the properties below, only whether
serialization succeeds). -/
def jsonQuote (s : String) : String :=
  "\"" ++ s ++ "\""

mutual

/-- Model of `json.Marshal` on one dynamic value.  Faithful to the Go encoder on
the shapes the plugin produces: strings and `[]byte` encode to JSON
strings, numbers and booleans to literals, a non-finite float is rejected
(`json: unsupported value`), a `map[interface\x7b\x7d]interface\x7b\x7d`
is rejected (`json: unsupported type`), string-keyed maps and slices
encode their elements recursively. -/
def marshalVal : GoVal → Except String String
  | .vstr s => .ok (jsonQuote s)
  | .vbytes b => .ok (jsonQuote b)
  | .vnum n => .ok (toString n)
  | .vbool b => .ok (cond b "true" "false")
  | .vnan => .error "json: unsupported value: NaN"
  | .vmap _ => .error "json: unsupported type: dynamic-keyed map"
  | .vsmap m =>
    match marshalSPairs m with
    | .error e => .error e
    | .ok parts => .ok ("\x7b" ++ String.intercalate "," parts ++ "\x7d")
  | .vlist l =>
    match marshalElems l with
    | .error e => .error e
    | .ok parts => .ok ("[" ++ String.intercalate "," parts ++ "]")

/-- Model of `json.Marshal` on the entries of a string-keyed map. -/
def marshalSPairs : List (String × GoVal) → Except String (List String)
  | [] => .ok []
  | (k, v) :: rest =>
    match marshalVal v with
    | .error e => .error e
    | .ok vs =>
      match marshalSPairs rest with
      | .error e => .error e
      | .ok rests => .ok ((jsonQuote k ++ ":" ++ vs) :: rests)

/-- Model of `json.Marshal` on the elements of a slice. -/
def marshalElems : List GoVal → Except String (List String)
  | [] => .ok []
  | v :: rest =>
    match marshalVal v with
    | .error e => .error e
    | .ok vs =>
      match marshalElems rest with
      | .error e => .error e
      | .ok rests => .ok (vs :: rests)

end

/-- Model of `json.Marshal(records)` for the `[]map[string]interface\x7b\x7d`
argument of `packagePayload`: a JSON array of objects. -/
def jsonMarshal (records : List OutRec) : Except String String :=
  match marshalElems (records.map GoVal.vsmap) with
  | .error e => .error e
  | .ok objs => .ok ("[" ++ String.intercalate "," objs ++ "]")

/-- Model of `packagePayload` (source lines 298-315), error view.  A `json.Marshal`
error is met with `panic(err)` (line 302), modelled as `Except.error`.
The gzip writer writes into an in-memory `bytes.Buffer`, whose `Write`,
`Flush` and `Close` cannot fail, so the remaining panics are dead code;
the compressor itself is abstracted as the parameter `gz`. -/
def packagePayload (gz : String → String) (records : List OutRec) :
    Except String String :=
  match jsonMarshal records with
  | .error e => .error e
  | .ok data => .ok (gz data)

/-- Model of `prepare` (source lines 97-116), panic view: the compressed payload is
produced by `packagePayload` and a panic there (or in the dead-code check
of line 101) unwinds through every pending `prepare` frame.  `bufCap`
abstracts `data.Cap()` on the compressed buffer and `fuel` bounds the
unbounded recursion as in `prepareChunks`. -/
def prepareE (gz : String → String) (bufCap : String → Nat) (cap : Int) :
    Nat → List OutRec → Except String (List String)
  | 0, _ => .ok []
  | fuel + 1, records =>
    match packagePayload gz records with
    | .error e => .error e
    | .ok data =>
      if (bufCap data : Int) ≥ cap then
        match prepareE gz bufCap cap fuel (records.take (records.length / 2)) with
        | .error e => .error e
        | .ok c1 =>
          match prepareE gz bufCap cap fuel (records.drop (records.length / 2)) with
          | .error e => .error e
          | .ok c2 => .ok (c1 ++ c2)
      else
        .ok [data]

/-- Model of `addRecord` followed by `sendRecords` and `prepare` (source lines
69-95), error view: when the flush predicate fires, the snapshot is handed
to `prepare`, and a panic raised there propagates to the caller of
`addRecord` (there is no recover anywhere in the plugin). -/
def addRecordE (gz : String → String) (bufCap : String → Nat)
    (config : PluginConfig) (st : BMState) (now : Int) (record : OutRec)
    (fuel : Nat) : Except String (BMState × Bool) :=
  let (st2, flushed, snapshot) := addRecord config st now record
  if flushed then
    match prepareE gz bufCap config.maxBufferSize fuel snapshot with
    | .error e => .error e
    | .ok _ => .ok (st2, true)
  else
    .ok (st2, false)

/-- Decimal digit accumulation for `strconv.ParseInt`: `none` on an empty
digit list or any non-digit character (a syntax error). -/
def digitsToNat (cs : List Char) : Option Nat :=
  if cs.isEmpty then none
  else
    cs.foldl
      (fun acc c =>
        match acc with
        | none => none
        | some n => if c.isDigit then some (n * 10 + (c.toNat - 48)) else none)
      (some 0)

/-- Model of `strconv.ParseInt(s, 10, 64)` with the error discarded, as the source
does (`config.maxBufferSize, _ = strconv.ParseInt(...)`): a syntax error
yields 0, an out-of-range value is clamped to the `int64` bounds. -/
def parseInt64 (s : String) : Int :=
  let cs := s.toList
  let signed : Int × List Char :=
    match cs with
    | '+' :: rest => (1, rest)
    | '-' :: rest => (-1, rest)
    | _ => (1, cs)
  match digitsToNat signed.2 with
  | none => 0
  | some n =>
    let v : Int := signed.1 * (n : Int)
    if v < -(2 ^ 63) then -(2 ^ 63)
    else if v ≥ 2 ^ 63 then 2 ^ 63 - 1
    else v

/-- Modelled from the spec: the `VERSION` constant lives in `version.go`,
which is not part of the sources here; the spec only says the default
`reportingSourceVersion` is "the build version", so the constant is kept
abstract up to its concrete text. -/
def VERSION : String := "1.0.0"

/-- Model of `FLBPluginInit` (source lines 150-210).  `get` stands for
`output.FLBPluginConfigKey(ctx, -)`, which yields `""` for an absent key.
`none` models `FLB_ERROR`; `some config` models `FLB_OK` together with
the configuration stored in the package-level `bufferManager`.  Parse
errors on the numeric keys are discarded.  Note the source checks
`len(reportingSourceType) == 0` (not the version string) when defaulting
`reportingSourceVersion`. -/
def FLBPluginInit (get : String → String) : Option PluginConfig :=
  let endpointRaw := get "endpoint"
  let endpoint :=
    if endpointRaw.length == 0 then "https://log-api.newrelic.com/log/v1"
    else endpointRaw
  let licenseKey := get "licenseKey"
  let apiKey := get "apiKey"
  if apiKey.length == 0 && licenseKey.length == 0 then
    none
  else if apiKey.length > 0 && licenseKey.length > 0 then
    none
  else
    let useApiKey := apiKey.length > 0
    let possibleeMaxBufferSize := get "maxBufferSize"
    let maxBufferSize :=
      if possibleeMaxBufferSize.length == 0 then (256000 : Int)
      else parseInt64 possibleeMaxBufferSize
    let possibleMaxRecords := get "maxRecords"
    let maxRecords :=
      if possibleMaxRecords.length == 0 then (1024 : Int)
      else parseInt64 possibleMaxRecords
    let possibleMaxTimeBetweenFlushes := get "maxTimeBetweenFlushes"
    let maxTimeBetweenFlushes :=
      if possibleMaxTimeBetweenFlushes.length == 0 then (5000 : Int)
      else parseInt64 possibleMaxTimeBetweenFlushes
    let reportingSourceType := get "reportingSourceType"
    let rsType :=
      if reportingSourceType.length == 0 then "fluent-bit"
      else reportingSourceType
    let reportingSourceVersion := get "reportingSourceVersion"
    let rsVersion :=
      if reportingSourceType.length == 0 then VERSION
      else reportingSourceVersion
    some
      { endpoint := endpoint
        apiKey := apiKey
        licenseKey := licenseKey
        maxBufferSize := maxBufferSize
        maxRecords := maxRecords
        maxTimeBetweenFlushes := maxTimeBetweenFlushes
        useApiKey := useApiKey
        reportingSourceType := rsType
        reportingSourceVersion := rsVersion }

/-! ### Shared concrete fixtures -/

/-- A plain record, already normalized. -/
def rec0 : OutRec := [("message", GoVal.vstr "hello")]

/-- A configuration with `maxRecords = 2` and the default thresholds. -/
def cfg0 : PluginConfig :=
  { endpoint := "https://log-api.newrelic.com/log/v1"
    apiKey := "key"
    licenseKey := ""
    maxBufferSize := 256000
    maxRecords := 2
    maxTimeBetweenFlushes := 5000
    useApiKey := true
    reportingSourceType := "fluent-bit"
    reportingSourceVersion := VERSION }

/-- A configuration with `maxRecords = 1`: every insertion flushes. -/
def cfg1 : PluginConfig :=
  { cfg0 with maxRecords := 1 }

/-- A compressed-size abstraction matching a realistic gzip profile for
the oversized-single-record scenario: the empty record list serializes to
`"[]"` and compresses to about 30 bytes, while any non-empty list of
these records compresses to 300000 bytes, above the default 256000-byte
cap. -/
def csizeBig (records : List OutRec) : Nat :=
  if records.isEmpty then 30 else 300000

/-- A compressed-size abstraction for the well-behaved scenario: each
record contributes 100 bytes. -/
def csizeLinear (records : List OutRec) : Nat :=
  100 * records.length

mutual

/-- The input shapes on which `remapRecord` cannot panic: every key is a
string, a dynamic-map value is recursively in shape, and no value is a
pre-normalized string-keyed map (the fluent-bit decoder only ever
delivers dynamic-keyed maps). -/
def goodKeys : List (GoVal × GoVal) → Bool
  | [] => true
  | (k, v) :: rest => goodKey k && goodValue v && goodKeys rest
termination_by l => sizeOf l

/-- A key the `k.(string)` assertion accepts. -/
def goodKey : GoVal → Bool
  | .vstr _ => true
  | _ => false

/-- A value in decoder shape: nested dynamic maps are recursively in
shape; a string-keyed map never occurs. -/
def goodValue : GoVal → Bool
  | .vmap m => goodKeys m
  | .vsmap _ => false
  | _ => true
termination_by v => sizeOf v

end

mutual

/-- Normalized-output well-formedness at the levels `remapRecord`
reaches: no raw byte-sequence value and no dynamic-keyed map remains as a
direct value, and string-keyed maps produced for nested mappings are
recursively well-formed.  (Values nested inside lists are untouched by
the code, and are not constrained.) -/
def remappedOk : OutRec → Bool
  | [] => true
  | (_, v) :: rest => remappedVal v && remappedOk rest
termination_by l => sizeOf l

/-- Well-formedness of one normalized value. -/
def remappedVal : GoVal → Bool
  | .vbytes _ => false
  | .vmap _ => false
  | .vsmap m => remappedOk m
  | _ => true
termination_by v => sizeOf v

end

/-- Whether an `Except`-modelled computation returned normally. -/
def exceptOk : Except String OutRec → Bool
  | .ok _ => true
  | .error _ => false

/-- A record whose only value is a non-finite float: `json.Marshal`
rejects it. -/
def recBad : OutRec := [("value", GoVal.vnan)]

/-- A decoder-shaped input record: a byte-sequence value under key "log"
and a nested dynamic-keyed mapping. -/
def rec7 : List (GoVal × GoVal) :=
  [(GoVal.vstr "log", GoVal.vbytes "hi"),
    (GoVal.vstr "nested", GoVal.vmap [(GoVal.vstr "a", GoVal.vnum 1)])]

/-- A configuration source with only `apiKey` set; every other key is
absent (`FLBPluginConfigKey` yields `""`). -/
def get8 : String → String :=
  fun k => if k == "apiKey" then "abc" else ""

/-- The configuration `FLBPluginInit` builds from `get8`: every optional
key takes its default. -/
def cfg8 : PluginConfig :=
  { endpoint := "https://log-api.newrelic.com/log/v1"
    apiKey := "abc"
    licenseKey := ""
    maxBufferSize := 256000
    maxRecords := 1024
    maxTimeBetweenFlushes := 5000
    useApiKey := true
    reportingSourceType := "fluent-bit"
    reportingSourceVersion := VERSION }

/-- The accumulator state right after start-up at time 0: empty buffer,
`lastFlushTime = 0`. -/
def st0 : BMState :=
  { buffer := [], lastFlushTime := 0 }

/-- Lemma: `wrap64` is the identity on values already in the signed 64-bit
range. -/
theorem wrap64_eq_self (x : Int) (h1 : -(2 ^ 63) ≤ x) (h2 : x < 2 ^ 63) :
    wrap64 x = x := by
  unfold wrap64; omega

/-- C1: the flush trigger evaluated by an insertion.  The count
condition of the claim (batch length after append ≥ `maxRecords`) is exact, but the
time condition in the code is STRICT (`>` on `maxTimeBetweenFlushes`,
source line 84), so at `elapsed = maxTimeBetweenFlushes` the claim
predicts a flush and the code does not: with `maxRecords = 2`,
`lastFlushTime = 0`, `now = 5000 = maxTimeBetweenFlushes`, inserting into
an empty buffer satisfies the disjunction of the claim yet `addRecord`
triggers no flush. -/
theorem addRecord_time_boundary_no_flush :
    (5000 : Int) - st0.lastFlushTime ≥ cfg0.maxTimeBetweenFlushes ∧
    (((st0.buffer ++ [rec0]).length : Int) ≥ cfg0.maxRecords ∨
      (5000 : Int) - st0.lastFlushTime ≥ cfg0.maxTimeBetweenFlushes) ∧
    (addRecord cfg0 st0 5000 rec0).2.1 = false := by
  refine ⟨by decide, Or.inr (by decide), ?_⟩
  rfl

/-- C1 (amended): an insertion triggers a flush if and only if, right
after appending, the batch length reaches `maxRecords` or the elapsed
time since the last flush STRICTLY exceeds `maxTimeBetweenFlushes`; when
neither holds the state is exactly the appended buffer and nothing is
handed to the packager, and when a flush fires the whole appended buffer
is the snapshot handed over. -/
theorem addRecord_flush_characterization (config : PluginConfig)
    (st : BMState) (now : Int) (record : OutRec) :
    ((addRecord config st now record).2.1 = true ↔
      ((st.buffer.length + 1 : Int) ≥ config.maxRecords ∨
        now - st.lastFlushTime > config.maxTimeBetweenFlushes)) ∧
    ((addRecord config st now record).2.1 = false →
      addRecord config st now record =
        ({ buffer := st.buffer ++ [record], lastFlushTime := st.lastFlushTime },
          false, [])) ∧
    ((addRecord config st now record).2.1 = true →
      (addRecord config st now record).2.2 = st.buffer ++ [record]) := by
  have hkey : (shouldSend config { st with buffer := st.buffer ++ [record] } now = true) ↔
      ((st.buffer.length + 1 : Int) ≥ config.maxRecords ∨
        now - st.lastFlushTime > config.maxTimeBetweenFlushes) := by
    simp only [shouldSend, Bool.or_eq_true, decide_eq_true_eq, List.length_append,
      List.length_cons, List.length_nil]
    push_cast
    exact Iff.rfl
  have hadd : addRecord config st now record =
      if shouldSend config { st with buffer := st.buffer ++ [record] } now = true
      then ({ buffer := [], lastFlushTime := now }, true, st.buffer ++ [record])
      else ({ buffer := st.buffer ++ [record], lastFlushTime := st.lastFlushTime },
        false, []) := rfl
  rw [hadd]
  by_cases h : shouldSend config { st with buffer := st.buffer ++ [record] } now = true
  · rw [if_pos h]
    exact ⟨by simpa using hkey.mp h, by simp, fun _ => rfl⟩
  · rw [if_neg h]
    have hc := fun c => h (hkey.mpr c)
    exact ⟨by simpa using hc, fun _ => rfl, by simp⟩

/-- C1 (amended) witness: with `maxRecords = 1` the first insertion at
time 0 flushes, and the snapshot is the one-record batch. -/
theorem addRecord_flush_characterization_witness :
    (addRecord cfg1 st0 0 rec0).2.2 = st0.buffer ++ [rec0] :=
  (addRecord_flush_characterization cfg1 st0 0 rec0).2.2 (by rfl)

/-- C6: `timeToMillis` maps an int64 raw timestamp by magnitude bracket:
under `2000000000` it is treated as seconds and multiplied by 1000 (the
int64 product, which for every timestamp whose product stays in range is
the plain product); under `2000000000000` it is returned unchanged as
milliseconds; under `2000000000000000` it is treated as microseconds and
divided by 1000; otherwise it is treated as nanoseconds and divided by
1000000.  In particular `1555612951` normalizes to `1555612951000` and
`1555612951401` is unchanged. -/
theorem timeToMillis_brackets (t : Int) :
    (t < 2000000000 → -(2 ^ 63) ≤ t * 1000 → timeToMillis t = t * 1000) ∧
    (2000000000 ≤ t → t < 2000000000000 → timeToMillis t = t) ∧
    (2000000000000 ≤ t → t < 2000000000000000 → timeToMillis t = t / 1000) ∧
    (2000000000000000 ≤ t → timeToMillis t = t / 1000000) ∧
    timeToMillis 1555612951 = 1555612951000 ∧
    timeToMillis 1555612951401 = 1555612951401 := by
  refine ⟨?_, ?_, ?_, ?_, by decide, by decide⟩
  · intro h1 h2
    have hup : t * 1000 < 2 ^ 63 := by omega
    unfold timeToMillis
    rw [if_pos h1]
    exact wrap64_eq_self _ h2 hup
  · intro h1 h2
    unfold timeToMillis
    rw [if_neg (by omega), if_pos h2]
  · intro h1 h2
    unfold timeToMillis
    rw [if_neg (by omega), if_neg (by omega), if_pos h2]
    exact Int.tdiv_eq_ediv (by omega) (by omega)
  · intro h1
    unfold timeToMillis
    rw [if_neg (by omega), if_neg (by omega), if_neg (by omega)]
    exact Int.tdiv_eq_ediv (by omega) (by omega)

/-- C6 witness: the bracket statements instantiated at the two scenario
timestamps (seconds scale and microseconds scale). -/
theorem timeToMillis_brackets_witness :
    timeToMillis 1555612951 = 1555612951 * 1000 ∧
    timeToMillis 1555612951401999 = 1555612951401999 / 1000 :=
  ⟨(timeToMillis_brackets 1555612951).1 (by decide) (by decide),
    (timeToMillis_brackets 1555612951401999).2.2.1 (by decide) (by decide)⟩

/-- C3: every payload chunk `prepare` hands to a dispatch goroutine has
compressed size strictly under `maxBufferSize` (the comparison is on the
compressed buffer, `packagePayload(records).Cap()`, abstracted by
`csize`): the emitting branch is guarded by `csize < cap`, for every fuel
bound and every size function. -/
theorem prepareChunks_under_cap (csize : List OutRec → Nat) (cap : Int)
    (fuel : Nat) (records : List OutRec) (chunk : List OutRec)
    (h : chunk ∈ (prepareChunks csize cap fuel records).1) :
    (csize chunk : Int) < cap := by
  induction fuel generalizing records with
  | zero => simp [prepareChunks] at h
  | succ n ih =>
    rw [prepareChunks] at h
    by_cases hge : (csize records : Int) ≥ cap
    · rw [if_pos hge] at h
      rcases List.mem_append.mp h with h1 | h2
      · exact ih _ h1
      · exact ih _ h2
    · rw [if_neg hge] at h
      rcases List.mem_singleton.mp h with rfl
      omega

/-- C3 witness: a two-record batch at 200 compressed bytes against a
150-byte cap splits once; the first emitted chunk is a singleton whose
compressed size 100 is under the cap. -/
theorem prepareChunks_under_cap_witness :
    (csizeLinear [rec0] : Int) < 150 :=
  prepareChunks_under_cap csizeLinear 150 2 [rec0, rec0] [rec0]
    (List.mem_append.mpr (Or.inl (List.mem_singleton.mpr rfl)))

/-- C2 (the code side): `prepare` does not terminate on a single record
whose compressed size reaches the cap.  Splitting `[r]` at the midpoint
yields `records[0:0] = []` and `records[0:1] = [r]`, so the recursion on
the second half makes no progress: for every fuel bound the run is still
incomplete, and the record is never emitted. -/
theorem prepareChunks_single_record_diverges :
    ∀ fuel : Nat, (prepareChunks csizeBig 256000 fuel [rec0]).2 = false := by
  intro fuel
  induction fuel with
  | zero => rfl
  | succ n ih =>
    rw [prepareChunks]
    rw [if_pos (by decide)]
    simp only [List.length_cons, List.length_nil]
    rw [show (1 : Nat) / 2 = 0 from rfl]
    simp only [List.take_zero, List.drop_zero]
    simp [ih]

/-- C4: splitting loses and duplicates nothing.  Whenever a `prepare` run
completes within its fuel bound, concatenating the record lists of the
emitted payload chunks in emission order gives back exactly the input
record list, and concatenating any permutation of the chunks gives a
permutation (the same multiset) of the input. -/
theorem prepareChunks_lossless (csize : List OutRec → Nat) (cap : Int)
    (fuel : Nat) (records : List OutRec)
    (h : (prepareChunks csize cap fuel records).2 = true) :
    (prepareChunks csize cap fuel records).1.flatten = records ∧
    ∀ other : List (List OutRec),
      (prepareChunks csize cap fuel records).1.Perm other →
        other.flatten.Perm records := by
  have main : ∀ n rs, (prepareChunks csize cap n rs).2 = true →
      (prepareChunks csize cap n rs).1.flatten = rs := by
    intro n
    induction n with
    | zero => intro rs h0; simp [prepareChunks] at h0
    | succ m ih =>
      intro rs hdone
      rw [prepareChunks] at hdone ⊢
      by_cases hge : (csize rs : Int) ≥ cap
      · rw [if_pos hge] at hdone ⊢
        simp only [Bool.and_eq_true] at hdone
        simp only [List.flatten_append, ih _ hdone.1, ih _ hdone.2]
        exact List.take_append_drop _ rs
      · rw [if_neg hge]
        simp [List.flatten]
  refine ⟨main fuel records h, fun other hperm => ?_⟩
  have := (hperm.flatten).symm
  rw [main fuel records h] at this
  exact this

/-- C10: the degenerate midpoint split dispatches an empty payload.  On a
single record whose compressed size reaches the cap (`csizeBig`),
`prepare` splits `[r]` into `records[0:0] = []` and `records[0:1]`, and
the empty half is packaged and handed to a dispatch goroutine: the only
chunk emitted within two recursion levels is the empty record list,
whose decompressed, deserialized content is an empty record array. -/
theorem prepare_dispatches_empty_payload :
    (prepareChunks csizeBig 256000 2 [rec0]).1 = [[]] := by
  rfl

/-- C5: a serialization failure during the flush triggered by an
insertion panics out of `addRecord` to its caller: with `maxRecords = 1`
the insertion of `recBad` flushes at once, `json.Marshal` fails on the
NaN value, `packagePayload` panics (line 302), and the panic propagates
through `prepare` and `sendRecords` to the caller of `addRecord` — the
batch is not merely logged-and-lost, the error escapes `insert`. -/
theorem addRecord_panics_on_marshal_error :
    addRecordE id String.length cfg1 st0 0 recBad 1 =
      Except.error "json: unsupported value: NaN" := by
  simp [addRecordE, addRecord, shouldSend, cfg1, cfg0, st0, recBad, prepareE,
    packagePayload, jsonMarshal, marshalElems, marshalVal, marshalSPairs]

/-- C7 counterexample: normalization is not total on byte-sequence keys.
A record whose key is a byte sequence hits the `k.(string)` type
assertion, which panics instead of converting the key to text: at this
concrete input `remapRecord` aborts rather than producing a string-keyed
tree. -/
theorem remapRecord_panics_on_byte_key :
    remapRecord [(GoVal.vbytes "service", GoVal.vstr "v")] =
      Except.error "interface conversion: interface is not string" := by
  simp [remapRecord, remapValue, asString]

mutual

/-- Value half of the totality argument for `remapRecord` on
decoder-shaped input. -/
theorem remapValueAux : ∀ (v : GoVal), goodValue v = true →
    ∃ w, remapValue v = Except.ok w ∧ remappedVal w = true
  | .vstr s, _ => ⟨.vstr s, by simp [remapValue], by simp [remappedVal]⟩
  | .vbytes b, _ => ⟨.vstr b, by simp [remapValue], by simp [remappedVal]⟩
  | .vnum n, _ => ⟨.vnum n, by simp [remapValue], by simp [remappedVal]⟩
  | .vbool b, _ => ⟨.vbool b, by simp [remapValue], by simp [remappedVal]⟩
  | .vnan, _ => ⟨.vnan, by simp [remapValue], by simp [remappedVal]⟩
  | .vlist l, _ => ⟨.vlist l, by simp [remapValue], by simp [remappedVal]⟩
  | .vsmap _, h => by simp [goodValue] at h
  | .vmap m, h => by
    have hm : goodKeys m = true := by simpa [goodValue] using h
    obtain ⟨out, hout, hok⟩ := remapRecordAux m hm
    exact ⟨.vsmap out, by simp [remapValue, hout],
      by simpa [remappedVal] using hok⟩
termination_by v _ => sizeOf v

/-- Record half of the totality argument for `remapRecord` on
decoder-shaped input. -/
theorem remapRecordAux : ∀ (l : List (GoVal × GoVal)), goodKeys l = true →
    ∃ out, remapRecord l = Except.ok out ∧ remappedOk out = true
  | [], _ => ⟨[], by simp [remapRecord], by simp [remappedOk]⟩
  | (k, v) :: rest, h => by
    simp only [goodKeys, Bool.and_eq_true] at h
    obtain ⟨⟨hk, hv⟩, hrest⟩ := h
    obtain ⟨w, hw, hwok⟩ := remapValueAux v hv
    obtain ⟨out2, hout2, hok2⟩ := remapRecordAux rest hrest
    cases k with
    | vstr s =>
      refine ⟨(s, w) :: out2, ?_, ?_⟩
      · simp [remapRecord, hw, asString, hout2]
      · simp [remappedOk, hwok, hok2]
    | vbytes b => simp [goodKey] at hk
    | vnum n => simp [goodKey] at hk
    | vbool b => simp [goodKey] at hk
    | vnan => simp [goodKey] at hk
    | vmap m => simp [goodKey] at hk
    | vsmap m => simp [goodKey] at hk
    | vlist m => simp [goodKey] at hk
termination_by l _ => sizeOf l

end

/-- C7 (amended): on every record in the shape the fluent-bit decoder
delivers — keys already strings at the top level and inside every
directly nested dynamic mapping — normalization succeeds and yields a
record with no remaining byte-sequence value and no remaining
dynamic-keyed mapping at any level it visits (byte values become text,
nested mappings become string-keyed maps); other values, including
anything nested inside lists, pass through unchanged.  Byte-sequence keys
panic (see the counterexample) and mappings inside lists are not
normalized. -/
theorem remapRecord_total_on_good_keys (l : List (GoVal × GoVal))
    (h : goodKeys l = true) :
    ∃ out, remapRecord l = Except.ok out ∧ remappedOk out = true :=
  remapRecordAux l h

/-- C7 (amended) witness: the byte value under "log" and the nested
dynamic map both normalize on the concrete decoder-shaped record. -/
theorem remapRecord_total_on_good_keys_witness :
    exceptOk (remapRecord rec7) = true := by
  obtain ⟨out, hout, -⟩ := remapRecord_total_on_good_keys rec7 (by
    simp [rec7, goodKeys, goodKey, goodValue])
  rw [hout]
  rfl

/-- C4 witness: a two-record batch at 200 compressed bytes against a
150-byte cap completes after one split into two singleton chunks, whose
concatenation is the original batch. -/
theorem prepareChunks_lossless_witness :
    (prepareChunks csizeLinear 150 2 [rec0, rec0]).1.flatten = [rec0, rec0] :=
  (prepareChunks_lossless csizeLinear 150 2 [rec0, rec0] (by rfl)).1

/-- C8: initialization fails exactly on invalid credential configuration
— both keys absent or both present — and on success exactly one
credential is selected: `useApiKey` is set precisely when `apiKey` is
non-empty, and the other credential is empty. -/
theorem init_rejects_bad_credentials (get : String → String) :
    (FLBPluginInit get = none ↔
      ((get "apiKey").length = 0 ∧ (get "licenseKey").length = 0) ∨
      ((get "apiKey").length ≠ 0 ∧ (get "licenseKey").length ≠ 0)) ∧
    (∀ config : PluginConfig, FLBPluginInit get = some config →
      (config.useApiKey = true ∧ config.apiKey = get "apiKey" ∧
        (get "apiKey").length ≠ 0 ∧ (get "licenseKey").length = 0) ∨
      (config.useApiKey = false ∧ config.licenseKey = get "licenseKey" ∧
        (get "apiKey").length = 0 ∧ (get "licenseKey").length ≠ 0)) := by
  by_cases h1 : (get "apiKey").length = 0 <;>
    by_cases h2 : (get "licenseKey").length = 0
  · constructor
    · simp [FLBPluginInit, h1, h2]
    · intro config hconfig
      simp [FLBPluginInit, h1, h2] at hconfig
  · constructor
    · simp [FLBPluginInit, h1, h2]
    · intro config hconfig
      simp [FLBPluginInit, h1, h2] at hconfig
      right
      subst hconfig
      simp [h1, h2]
  · constructor
    · simp [FLBPluginInit, h1, h2]
    · intro config hconfig
      simp [FLBPluginInit, h1, h2] at hconfig
      left
      subst hconfig
      simp [h1, h2]
      omega
  · constructor
    · simp [FLBPluginInit, h1, h2]
    · intro config hconfig
      simp [FLBPluginInit, h1, h2] at hconfig

/-- C8 witness: with no credential at all, initialization refuses to
start. -/
theorem init_rejects_bad_credentials_witness :
    FLBPluginInit (fun _ => "") = none :=
  (init_rejects_bad_credentials (fun _ => "")).1.mpr (Or.inl ⟨rfl, rfl⟩)

/-- C9 counterexample: with every optional key absent the default
`reportingSourceType` the code stores is `"fluent-bit"` (source line
196), not the documented `"log-shipper"`. -/
theorem init_default_source_type_not_log_shipper :
    (FLBPluginInit get8).map PluginConfig.reportingSourceType =
      some "fluent-bit" ∧ ("fluent-bit" : String) ≠ "log-shipper" := by
  constructor
  · decide
  · decide

/-- C9 (amended): on successful initialization each absent optional key
takes its coded default — endpoint the fixed public URL, `maxBufferSize`
256000, `maxRecords` 1024, `maxTimeBetweenFlushes` 5000,
`reportingSourceType` `"fluent-bit"` — and `reportingSourceVersion`
defaults to the build version only when `reportingSourceType` is ALSO
absent: the code tests `len(reportingSourceType)` (source line 202), so
when a type is supplied the version field is copied verbatim, even when
absent (yielding `""`, not the build version). -/
theorem init_defaults (get : String → String) (config : PluginConfig)
    (h : FLBPluginInit get = some config) :
    (get "endpoint" = "" →
      config.endpoint = "https://log-api.newrelic.com/log/v1") ∧
    (get "maxBufferSize" = "" → config.maxBufferSize = 256000) ∧
    (get "maxRecords" = "" → config.maxRecords = 1024) ∧
    (get "maxTimeBetweenFlushes" = "" → config.maxTimeBetweenFlushes = 5000) ∧
    (get "reportingSourceType" = "" →
      config.reportingSourceType = "fluent-bit" ∧
      config.reportingSourceVersion = VERSION) ∧
    (get "reportingSourceType" ≠ "" →
      config.reportingSourceType = get "reportingSourceType" ∧
      config.reportingSourceVersion = get "reportingSourceVersion") := by
  by_cases h1 : (get "apiKey").length = 0 <;>
    by_cases h2 : (get "licenseKey").length = 0
  · simp [FLBPluginInit, h1, h2] at h
  · simp [FLBPluginInit, h1, h2] at h
    subst h
    refine ⟨fun he => by simp [he], fun he => by simp [he],
      fun he => by simp [he], fun he => by simp [he],
      fun he => by simp [he], fun he => ?_⟩
    have : (get "reportingSourceType").length ≠ 0 := by
      intro hz
      exact he (by
        cases hg : get "reportingSourceType" with
        | mk l =>
          rw [hg] at hz
          simpa [String.length, String.ext_iff] using
            List.length_eq_zero.mp (by simpa [String.length] using hz) ▸ rfl)
    simp [this]
  · simp [FLBPluginInit, h1, h2] at h
    subst h
    refine ⟨fun he => by simp [he], fun he => by simp [he],
      fun he => by simp [he], fun he => by simp [he],
      fun he => by simp [he], fun he => ?_⟩
    have : (get "reportingSourceType").length ≠ 0 := by
      intro hz
      exact he (by
        cases hg : get "reportingSourceType" with
        | mk l =>
          rw [hg] at hz
          simpa [String.length, String.ext_iff] using
            List.length_eq_zero.mp (by simpa [String.length] using hz) ▸ rfl)
    simp [this]
  · simp [FLBPluginInit, h1, h2] at h

/-- C9 (amended) witness: from a source with only `apiKey` set, the
stored defaults are the coded ones. -/
theorem init_defaults_witness :
    cfg8.maxBufferSize = 256000 ∧ cfg8.maxRecords = 1024 ∧
    cfg8.maxTimeBetweenFlushes = 5000 ∧
    cfg8.reportingSourceType = "fluent-bit" ∧
    cfg8.reportingSourceVersion = VERSION := by
  have hdef := init_defaults get8 cfg8 (by decide)
  exact ⟨hdef.2.1 rfl, hdef.2.2.1 rfl, hdef.2.2.2.1 rfl,
    (hdef.2.2.2.2.1 rfl).1, (hdef.2.2.2.2.1 rfl).2⟩
